import Mathlib

/-!
Verification of the seckill (flash-sale) system's core transactional logic,
shallowly embedded from the Go sources and the Redis Lua scripts.

The embedding works on explicit store states:
* the Redis stock cell and rate-limit counter of one product / one user are
  `Option Int` values (absent key = `none`);
* the durable promotion row is an `Option PromotionRow`;
* the set of orders for one product is the list of user ids holding one;
* a purchase-token record is an `Option SeckillTokenData`.
Stateful Go functions become explicit state-passing functions; sequences of
calls are folded over the state, each call running atomically in sequence.
-/

set_option autoImplicit false

/-- Result of the `check_and_decr_stock` branch of `scripts/stock_operations.lua`,
operating on the optional stored integer of the stock key: returns the script
result (-1 absent, -2 when the value is ≤ 0, otherwise the decremented value)
together with the new stored value. -/
def check_and_decr_stock : Option Int → Int × Option Int
  | none => (-1, none)
  | some stock =>
      if stock ≤ 0 then (-2, some stock)
      else (stock - 1, some (stock - 1))

/-- State of one user's rate-limit key: the counter (absent before the first
increment) and the expiry recorded by the last EXPIRE call, if any. -/
structure RateState where
  counter : Option Int
  ttl : Option Int
deriving Repr, DecidableEq

/-- Embedding of `scripts/user_rate_limit.lua`: reads the counter; if it exists
and is ≥ the limit, returns 0 without change; otherwise increments (INCR creates
the key at 1 when absent), sets the expiry when the post-increment value is 1,
and returns 1. -/
def user_rate_limit (limit ttlSeconds : Int) (s : RateState) : Int × RateState :=
  match s.counter with
  | some c =>
      if limit ≤ c then (0, s)
      else (1, { counter := some (c + 1),
                 ttl := if c + 1 = 1 then some ttlSeconds else s.ttl })
  | none => (1, { counter := some 1, ttl := some ttlSeconds })

/-- Iteration of the rate-limit script: the list of script results of `n`
invocations within one window, together with the final key state. -/
def rateLimitIter (limit ttlSeconds : Int) : Nat → RateState → List Int × RateState
  | 0, s => ([], s)
  | n + 1, s =>
      let r := user_rate_limit limit ttlSeconds s
      let rest := rateLimitIter limit ttlSeconds n r.2
      (r.1 :: rest.1, rest.2)

/-- GetSeckillEnabled from `repository/etcd_repository.go`, as a function of the
optional stored value of the enabled key: absent defaults to `true`, otherwise
the stored string is compared with "true". -/
def getSeckillEnabled : Option String → Bool
  | none => true
  | some v => v == "true"

/-- GetRateLimitConfig from `repository/etcd_repository.go`, as a function of
the optional parsed value of the rate-limit key: absent defaults to 10. -/
def getRateLimitConfig : Option Int → Int
  | none => 10
  | some v => v

/-- GetGoodsStock from `config/config.go`: a plain GET of the stock cell that
returns 0 (with no error) when the key is absent. -/
def getGoodsStock : Option Int → Int
  | none => 0
  | some v => v

/-- IncrGoodsStock from `config/config.go`: a Redis INCR on the stock cell,
creating the key at 1 when absent. -/
def incrGoodsStock : Option Int → Option Int
  | none => some 1
  | some v => some (v + 1)

/-- Fields of the `promotion_seckill` row that the verified operations read or
write (the campaign is for one fixed product, so `goods_id` is implicit). -/
structure PromotionRow where
  psCount : Int
  startTime : Int
  endTime : Int
  version : Int
deriving Repr, DecidableEq

/-- OccReduceOnePromotionByGoodsId from the repository: the UPDATE touches the
row only when its current version equals the expected one, in which case
`ps_count` is decremented and `version` incremented; the returned integer is
`rows_affected`. -/
def occReduceOnePromotion (expectedVersion : Int) :
    Option PromotionRow → Int × Option PromotionRow
  | none => (0, none)
  | some p =>
      if p.version = expectedVersion then
        (1, some { p with psCount := p.psCount - 1, version := p.version + 1 })
      else (0, some p)

/-- Stored record of one purchase (seckill) token. -/
structure SeckillTokenData where
  userId : Int
  goodsId : Int
  expireAt : Int
deriving Repr, DecidableEq

/-- Outcome of VerifySeckillToken, separating the `(false, nil)` not-found case
from the error cases, as the Go code does. -/
inductive VerifyOutcome where
  | ok
  | notFound
  | expired
  | mismatch
deriving Repr, DecidableEq

/-- VerifySeckillToken from `config/config.go`, on the optional stored record of
the presented token key: absent gives not-found; a past expiry deletes the
record and fails; a user or goods mismatch fails without deleting; success
deletes the record (single use) and returns ok. -/
def verifySeckillToken (now userId goodsId : Int) :
    Option SeckillTokenData → VerifyOutcome × Option SeckillTokenData
  | none => (.notFound, none)
  | some t =>
      if t.expireAt < now then (.expired, none)
      else if t.userId ≠ userId ∨ t.goodsId ≠ goodsId then (.mismatch, some t)
      else (.ok, none)

/-- Errors the token-issue pipeline (`GenerateSeckillToken` in
`service/good_service.go`) can return, one per gate, in source order. The
per-user lease taken at entry is modelled as acquired, since the embedding is
sequential. -/
inductive GateErr where
  | disabled
  | blacklisted
  | goodsNotFound
  | promotionNotFound
  | notAvailable
  | soldOut
  | rateLimited
deriving Repr, DecidableEq

/-- Slice of the backing stores that the admission pipeline consults: the etcd
enabled flag and rate-limit config (raw optional values), the blacklist, the
goods and promotion tables, the Redis stock cells, and the requesting user's
rate-limit key. -/
structure AdmissionState where
  enabledKey : Option String
  blacklist : List Int
  goods : List Int
  promotion : Int → Option PromotionRow
  stock : Int → Option Int
  rateLimitKey : Option Int
  rate : RateState

/-- GenerateSeckillToken from `service/good_service.go`: after the per-user
lease, the gates run in source order — enabled flag, blacklist, goods lookup,
promotion lookup, activity window (`now.Before(start) || now.After(end)`
rejects), stock peek via `GetGoodsStock`, then the rate-limit script with a
60-second window; if all pass a purchase token is issued (`Except.ok ()`). -/
def generateSeckillToken (now userId goodsId : Int) (s : AdmissionState) :
    Except GateErr Unit × AdmissionState :=
  if getSeckillEnabled s.enabledKey = false then (.error .disabled, s)
  else if userId ∈ s.blacklist then (.error .blacklisted, s)
  else if goodsId ∉ s.goods then (.error .goodsNotFound, s)
  else
    match s.promotion goodsId with
    | none => (.error .promotionNotFound, s)
    | some p =>
        if now < p.startTime ∨ p.endTime < now then (.error .notAvailable, s)
        else if getGoodsStock (s.stock goodsId) ≤ 0 then (.error .soldOut, s)
        else
          let res := user_rate_limit (getRateLimitConfig s.rateLimitKey) 60 s.rate
          if res.1 = 1 then (.ok (), { s with rate := res.2 })
          else (.error .rateLimited, { s with rate := res.2 })

/-- Errors of CreateOrder in `handler/seckill.go`, in source order: the
pre-decrement rejection, then the three transaction failures. -/
inductive OrderErr where
  | stockCheckFailed
  | getPromotionFailed
  | stockNotEnough
  | duplicateOrder
deriving Repr, DecidableEq

/-- Combined per-product state touched by commit_purchase: the Redis stock
cell, the durable promotion row, the user ids holding an order for the product
(table `success_killed`, keyed by `(goods_id, user_id)`), and the stored record
of the presented purchase token. -/
structure EngineState where
  stock : Option Int
  promo : Option PromotionRow
  orders : List Int
  token : Option SeckillTokenData
deriving Repr, DecidableEq

/-- CreateOrder from `handler/seckill.go`: atomic pre-decrement with
`CheckAndDecrStock` (the -1 and -2 results are mapped to an error); then the
transaction callback reads the promotion row and applies the optimistic-lock
decrement — both on the base `dao.db` connection, so that decrement is not
rolled back — and inserts the order inside the transaction (a duplicate
`(goods_id, user_id)` key aborts it); when the transaction returns an error the
handler compensates with one `IncrGoodsStock` on the Redis cell. -/
def createOrder (userId : Int) (s : EngineState) : Except OrderErr Unit × EngineState :=
  match check_and_decr_stock s.stock with
  | (res, newStock) =>
      if res = -1 ∨ res = -2 then (.error .stockCheckFailed, s)
      else
        match s.promo with
        | none => (.error .getPromotionFailed, { s with stock := incrGoodsStock newStock })
        | some p =>
            match occReduceOnePromotion p.version (some p) with
            | (rows, newPromo) =>
                if rows = 0 then
                  (.error .stockNotEnough,
                   { s with stock := incrGoodsStock newStock, promo := newPromo })
                else if userId ∈ s.orders then
                  (.error .duplicateOrder,
                   { s with stock := incrGoodsStock newStock, promo := newPromo })
                else
                  (.ok (),
                   { s with stock := newStock, promo := newPromo,
                            orders := userId :: s.orders })

/-- Errors of SeckillWithToken in `service/good_service.go`: an invalid token,
or a failure inside CreateOrder (the per-user lease is modelled as acquired). -/
inductive SeckillErr where
  | invalidToken
  | orderFailed (e : OrderErr)
deriving Repr, DecidableEq

/-- SeckillWithToken from `service/good_service.go`: validate-and-consume the
purchase token — any verification failure is reported as the invalid-token
error, before any stock operation — then run CreateOrder under the per-user
lease. -/
def seckillWithToken (now userId goodsId : Int) (s : EngineState) :
    Except SeckillErr Unit × EngineState :=
  match verifySeckillToken now userId goodsId s.token with
  | (vres, newTok) =>
      if vres ≠ .ok then (.error .invalidToken, { s with token := newTok })
      else
        match createOrder userId { s with token := newTok } with
        | (.error e, s2) => (.error (.orderFailed e), s2)
        | (.ok _, s2) => (.ok (), s2)

/-- Sequential run of CreateOrder for a list of users against one product. -/
def createOrderRun (users : List Int) (s : EngineState) :
    List (Except OrderErr Unit) × EngineState :=
  match users with
  | [] => ([], s)
  | u :: rest =>
      let r := createOrder u s
      let rs := createOrderRun rest r.2
      (r.1 :: rs.1, rs.2)

/-- Sequential run of `n` SeckillWithToken calls, all presenting the same
purchase token for the same user and product. -/
def seckillRun (now userId goodsId : Int) :
    Nat → EngineState → List (Except SeckillErr Unit) × EngineState
  | 0, s => ([], s)
  | n + 1, s =>
      let r := seckillWithToken now userId goodsId s
      let rs := seckillRun now userId goodsId n r.2
      (r.1 :: rs.1, rs.2)

/-- Campaign start state for one product: the stock cell preloaded to `K`
(`PreloadGoodsStock` copies `ps_count` into Redis), the promotion row present,
no orders, and an optional stored purchase-token record. -/
def initState (K : Nat) (p : PromotionRow) (tok : Option SeckillTokenData) : EngineState :=
  { stock := some (K : Int), promo := some p, orders := [], token := tok }

/-- Concrete promotion row used in witnesses: 5 units, window [0, 10],
version 0. -/
def promoSample : PromotionRow :=
  { psCount := 5, startTime := 0, endTime := 10, version := 0 }

/-- Concrete admission-store state used in witnesses: goods 1 on sale with
stock 5, user 9 blacklisted, rate limit 3, enabled key absent. -/
def admSample : AdmissionState where
  enabledKey := none
  blacklist := [9]
  goods := [1]
  promotion := fun g => if g = 1 then some promoSample else none
  stock := fun g => if g = 1 then some 5 else none
  rateLimitKey := some 3
  rate := { counter := none, ttl := none }

/-- Variant of the sample admission state whose enabled key stores "false". -/
def admDisabled : AdmissionState := { admSample with enabledKey := some "false" }

/-- Variant of the sample admission state with no stock cell loaded. -/
def admNoStock : AdmissionState := { admSample with stock := fun _ => none }

/-- Concrete purchase-token record used in witnesses: user 1, goods 1, expiry
at time 100. -/
def tokSample : SeckillTokenData := { userId := 1, goodsId := 1, expireAt := 100 }

/-- Concrete engine state used in witnesses: stock 2, the sample promotion,
user 5 already holding an order, the sample token stored. -/
def engSample : EngineState :=
  { stock := some 2, promo := some promoSample, orders := [5], token := some tokSample }

/-- Concrete engine state used in witnesses: stock 2, the sample promotion, no
orders yet, the sample token stored. -/
def engFresh : EngineState :=
  { stock := some 2, promo := some promoSample, orders := [], token := some tokSample }

/-- C7: the CheckAndDecrStock script returns -1 when the stock key is absent and
-2 when the current value is ≤ 0, leaving the stored value unchanged in both
cases; otherwise it decrements the counter by one and returns the new value, so
it never drives an existing non-negative counter below zero. -/
theorem check_and_decr_stock_correct (s : Option Int) :
    (s = none → check_and_decr_stock s = (-1, none)) ∧
    (∀ v : Int, s = some v → v ≤ 0 → check_and_decr_stock s = (-2, some v)) ∧
    (∀ v : Int, s = some v → 0 < v → check_and_decr_stock s = (v - 1, some (v - 1))) ∧
    (∀ v w : Int, s = some v → 0 ≤ v → (check_and_decr_stock s).2 = some w → 0 ≤ w) := by
  refine ⟨fun h => by subst h; rfl, fun v h hv => ?_, fun v h hv => ?_, fun v w h hv hw => ?_⟩
  · subst h; simp [check_and_decr_stock, hv]
  · subst h; simp [check_and_decr_stock, not_le.mpr hv, le_of_lt hv]
  · subst h
    by_cases hle : v ≤ 0
    · simp [check_and_decr_stock, hle] at hw
      omega
    · simp [check_and_decr_stock, hle] at hw
      omega

/-- Witness for C7 at a concrete stored value. -/
theorem check_and_decr_stock_correct_witness :
    check_and_decr_stock (some 3) = (2, some 2) := by
  have h := (check_and_decr_stock_correct (some 3)).2.2.1 3 rfl (by norm_num)
  simpa using h

/-- Behaviour of the rate-limit script iterated from an already-created counter
cell holding `c ≥ 1`: invocation `i` is allowed exactly when `c + i` is still
below the limit, the counter never grows past the limit, and the recorded
expiry is untouched (the post-increment value can no longer be 1). -/
theorem rateLimitIter_from_counter (L ttl : Int) (T : Option Int) :
    ∀ (n : Nat) (c : Int), 1 ≤ c →
      rateLimitIter L ttl n ⟨some c, T⟩ =
        ((List.range n).map (fun i : Nat => if c + (i : Int) < L then (1 : Int) else 0),
         ⟨some (max c (min (c + (n : Int)) L)), T⟩) := by
  intro n
  induction n with
  | zero =>
      intro c hc
      have hcnt : max c (min (c + ((0 : Nat) : Int)) L) = c := by push_cast; omega
      simp only [rateLimitIter, List.range_zero, List.map_nil, hcnt]
  | succ n ih =>
      intro c hc
      by_cases hcL : L ≤ c
      · have hstep : user_rate_limit L ttl ⟨some c, T⟩ = (0, ⟨some c, T⟩) := by
          simp [user_rate_limit, hcL]
        have htail := ih c hc
        simp only [rateLimitIter, hstep, htail]
        refine Prod.ext ?_ ?_
        · simp only [List.range_succ_eq_map, List.map_cons, List.map_map]
          refine congrArg₂ _ ?_ ?_
          · rw [if_neg (by push_cast; omega)]
          · refine List.map_congr_left fun i _ => ?_
            simp only [Function.comp]
            rw [if_neg (by omega), if_neg (by omega)]
        · simp only [Prod.snd]
          congr 2
          push_cast
          omega
      · have hstep : user_rate_limit L ttl ⟨some c, T⟩ = (1, ⟨some (c + 1), T⟩) := by
          simp only [user_rate_limit]
          rw [if_neg hcL, if_neg (by omega)]
        have htail := ih (c + 1) (by omega)
        simp only [rateLimitIter, hstep, htail]
        refine Prod.ext ?_ ?_
        · simp only [List.range_succ_eq_map, List.map_cons, List.map_map]
          refine congrArg₂ _ ?_ ?_
          · rw [if_pos (by push_cast; omega)]
          · refine List.map_congr_left fun i _ => ?_
            simp only [Function.comp]
            by_cases hi : c + 1 + (i : Int) < L
            · rw [if_pos hi, if_pos (by push_cast at hi ⊢; omega)]
            · rw [if_neg hi, if_neg (by push_cast at hi ⊢; omega)]
        · simp only [Prod.snd]
          congr 2
          push_cast
          omega

/-- C8: for every configured limit `L ≥ 1`, within a single rate window (the
counter key starts absent) the RateLimit script allows exactly the invocations
whose index is below `L` — so it returns 1 for at most `L` invocations and 0
for every further one — and leaves the counter at `min (n+1) L`; the expiry is
set to the window length by the invocation whose post-increment value is 1 (the
one that creates the counter) and is untouched by invocations that see an
existing counter. -/
theorem user_rate_limit_window (L ttl : Int) (n : Nat) (hL : 1 ≤ L) :
    rateLimitIter L ttl (n + 1) ⟨none, none⟩ =
      ((List.range (n + 1)).map (fun i : Nat => if (i : Int) < L then (1 : Int) else 0),
       ⟨some (min ((n : Int) + 1) L), some ttl⟩) ∧
    (user_rate_limit L ttl ⟨none, none⟩).2.ttl = some ttl ∧
    (∀ (c : Int) (T : Option Int), 1 ≤ c →
      ((user_rate_limit L ttl ⟨some c, T⟩).2).ttl = T) := by
  refine ⟨?_, rfl, ?_⟩
  · have hstep : user_rate_limit L ttl ⟨none, none⟩ = (1, ⟨some 1, some ttl⟩) := rfl
    have htail := rateLimitIter_from_counter L ttl (some ttl) n 1 (by norm_num)
    simp only [rateLimitIter, hstep, htail]
    refine Prod.ext ?_ ?_
    · simp only [List.range_succ_eq_map, List.map_cons, List.map_map]
      refine congrArg₂ _ ?_ ?_
      · rw [if_pos (by push_cast; omega)]
      · refine List.map_congr_left fun i _ => ?_
        simp only [Function.comp]
        by_cases hi : (1 : Int) + (i : Int) < L
        · rw [if_pos hi, if_pos (by push_cast at hi ⊢; omega)]
        · rw [if_neg hi, if_neg (by push_cast at hi ⊢; omega)]
    · simp only [Prod.snd]
      congr 2
      omega
  · intro c T hc
    simp only [user_rate_limit]
    split
    · rfl
    · simp only [Prod.snd]
      rw [if_neg (by omega)]

/-- Witness for C8: limit 3, window 60 s, five invocations in the window. -/
theorem user_rate_limit_window_witness :
    rateLimitIter 3 60 (4 + 1) ⟨none, none⟩ = ([1, 1, 1, 0, 0], ⟨some 3, some 60⟩) := by
  have h := (user_rate_limit_window 3 60 4 (by norm_num)).1
  exact h.trans (by decide)

/-- Exhaustive case analysis of the token-issue pipeline: exactly one gate, in
source order, determines the outcome, and the rate-limit key is touched only in
the final gate. -/
theorem generateSeckillToken_cases (now u g : Int) (s : AdmissionState) :
    (getSeckillEnabled s.enabledKey = false ∧
       generateSeckillToken now u g s = (.error .disabled, s)) ∨
    (getSeckillEnabled s.enabledKey = true ∧ u ∈ s.blacklist ∧
       generateSeckillToken now u g s = (.error .blacklisted, s)) ∨
    (getSeckillEnabled s.enabledKey = true ∧ u ∉ s.blacklist ∧ g ∉ s.goods ∧
       generateSeckillToken now u g s = (.error .goodsNotFound, s)) ∨
    (getSeckillEnabled s.enabledKey = true ∧ u ∉ s.blacklist ∧ g ∈ s.goods ∧
       s.promotion g = none ∧
       generateSeckillToken now u g s = (.error .promotionNotFound, s)) ∨
    (∃ p, getSeckillEnabled s.enabledKey = true ∧ u ∉ s.blacklist ∧ g ∈ s.goods ∧
       s.promotion g = some p ∧ (now < p.startTime ∨ p.endTime < now) ∧
       generateSeckillToken now u g s = (.error .notAvailable, s)) ∨
    (∃ p, getSeckillEnabled s.enabledKey = true ∧ u ∉ s.blacklist ∧ g ∈ s.goods ∧
       s.promotion g = some p ∧ ¬(now < p.startTime ∨ p.endTime < now) ∧
       getGoodsStock (s.stock g) ≤ 0 ∧
       generateSeckillToken now u g s = (.error .soldOut, s)) ∨
    (∃ p, getSeckillEnabled s.enabledKey = true ∧ u ∉ s.blacklist ∧ g ∈ s.goods ∧
       s.promotion g = some p ∧ ¬(now < p.startTime ∨ p.endTime < now) ∧
       0 < getGoodsStock (s.stock g) ∧
       generateSeckillToken now u g s =
         (if (user_rate_limit (getRateLimitConfig s.rateLimitKey) 60 s.rate).1 = 1
            then (Except.ok (),
                  { s with rate := (user_rate_limit (getRateLimitConfig s.rateLimitKey) 60 s.rate).2 })
            else (Except.error GateErr.rateLimited,
                  { s with rate := (user_rate_limit (getRateLimitConfig s.rateLimitKey) 60 s.rate).2 }))) := by
  by_cases h1 : getSeckillEnabled s.enabledKey = false
  · exact Or.inl ⟨h1, by simp [generateSeckillToken, h1]⟩
  · have h1t : getSeckillEnabled s.enabledKey = true := by
      revert h1; cases getSeckillEnabled s.enabledKey <;> simp
    by_cases h2 : u ∈ s.blacklist
    · exact Or.inr (Or.inl ⟨h1t, h2, by simp [generateSeckillToken, h1, h2]⟩)
    · by_cases h3 : g ∈ s.goods
      · cases hp : s.promotion g with
        | none =>
            refine Or.inr (Or.inr (Or.inr (Or.inl ⟨h1t, h2, h3, rfl, ?_⟩)))
            simp [generateSeckillToken, h1, h2, h3, hp]
        | some p =>
            by_cases h5 : now < p.startTime ∨ p.endTime < now
            · refine Or.inr (Or.inr (Or.inr (Or.inr (Or.inl ⟨p, h1t, h2, h3, rfl, h5, ?_⟩))))
              simp [generateSeckillToken, h1, h2, h3, hp, h5]
            · by_cases h6 : getGoodsStock (s.stock g) ≤ 0
              · refine Or.inr (Or.inr (Or.inr (Or.inr (Or.inr (Or.inl
                  ⟨p, h1t, h2, h3, rfl, h5, h6, ?_⟩)))))
                simp [generateSeckillToken, h1, h2, h3, hp, h5, h6]
              · refine Or.inr (Or.inr (Or.inr (Or.inr (Or.inr (Or.inr
                  ⟨p, h1t, h2, h3, rfl, h5, by omega, ?_⟩)))))
                simp [generateSeckillToken, h1, h2, h3, hp, h5, h6]
      · exact Or.inr (Or.inr (Or.inl ⟨h1t, h2, h3, by simp [generateSeckillToken, h1, h2, h3]⟩))

/-- C5: the admission gates run in the strict source order enabled flag,
blacklist, promotion lookup (the goods-table and promotion-row reads together
implement the promotion-exists gate), activity window, stock peek, rate limit,
and the call returns the error of the first failing gate; the rate-limit key is
touched only when the five earlier gates all pass, and when the rate gate also
passes a purchase token is issued and returned. -/
theorem generateSeckillToken_gate_order (now u g : Int) (s : AdmissionState) :
    (getSeckillEnabled s.enabledKey = false →
       generateSeckillToken now u g s = (.error .disabled, s)) ∧
    (getSeckillEnabled s.enabledKey = true → u ∈ s.blacklist →
       generateSeckillToken now u g s = (.error .blacklisted, s)) ∧
    (getSeckillEnabled s.enabledKey = true → u ∉ s.blacklist → g ∈ s.goods →
       s.promotion g = none →
       generateSeckillToken now u g s = (.error .promotionNotFound, s)) ∧
    (∀ p, getSeckillEnabled s.enabledKey = true → u ∉ s.blacklist → g ∈ s.goods →
       s.promotion g = some p → (now < p.startTime ∨ p.endTime < now) →
       generateSeckillToken now u g s = (.error .notAvailable, s)) ∧
    (∀ p, getSeckillEnabled s.enabledKey = true → u ∉ s.blacklist → g ∈ s.goods →
       s.promotion g = some p → ¬(now < p.startTime ∨ p.endTime < now) →
       getGoodsStock (s.stock g) ≤ 0 →
       generateSeckillToken now u g s = (.error .soldOut, s)) ∧
    (∀ p, getSeckillEnabled s.enabledKey = true → u ∉ s.blacklist → g ∈ s.goods →
       s.promotion g = some p → ¬(now < p.startTime ∨ p.endTime < now) →
       0 < getGoodsStock (s.stock g) →
       generateSeckillToken now u g s =
         (if (user_rate_limit (getRateLimitConfig s.rateLimitKey) 60 s.rate).1 = 1
            then (Except.ok (),
                  { s with rate := (user_rate_limit (getRateLimitConfig s.rateLimitKey) 60 s.rate).2 })
            else (Except.error GateErr.rateLimited,
                  { s with rate := (user_rate_limit (getRateLimitConfig s.rateLimitKey) 60 s.rate).2 }))) ∧
    ((generateSeckillToken now u g s).2.rate ≠ s.rate →
       getSeckillEnabled s.enabledKey = true ∧ u ∉ s.blacklist ∧ g ∈ s.goods ∧
       (∃ p, s.promotion g = some p ∧ ¬(now < p.startTime ∨ p.endTime < now)) ∧
       0 < getGoodsStock (s.stock g)) := by
  refine ⟨fun h1 => by simp [generateSeckillToken, h1],
          fun h1 h2 => by simp [generateSeckillToken, h1, h2],
          fun h1 h2 h3 hp => by simp [generateSeckillToken, h1, h2, h3, hp],
          fun p h1 h2 h3 hp h5 => by simp [generateSeckillToken, h1, h2, h3, hp, h5],
          fun p h1 h2 h3 hp h5 h6 => by simp [generateSeckillToken, h1, h2, h3, hp, h5, h6],
          fun p h1 h2 h3 hp h5 h6 => ?_, fun hrate => ?_⟩
  · have h6n : ¬ getGoodsStock (s.stock g) ≤ 0 := by omega
    simp [generateSeckillToken, h1, h2, h3, hp, h5, h6n]
  · rcases generateSeckillToken_cases now u g s with
      ⟨_, hr⟩ | ⟨_, _, hr⟩ | ⟨_, _, _, hr⟩ | ⟨_, _, _, _, hr⟩ |
      ⟨p, _, _, _, _, _, hr⟩ | ⟨p, _, _, _, _, _, _, hr⟩ |
      ⟨p, h1, h2, h3, hp, h5, h6, hr⟩
    · exact absurd (by rw [hr]) hrate
    · exact absurd (by rw [hr]) hrate
    · exact absurd (by rw [hr]) hrate
    · exact absurd (by rw [hr]) hrate
    · exact absurd (by rw [hr]) hrate
    · exact absurd (by rw [hr]) hrate
    · exact ⟨h1, h2, h3, ⟨p, hp, h5⟩, h6⟩

/-- Witness for C5: the disabled gate fires first on a state whose enabled key
stores "false". -/
theorem generateSeckillToken_gate_order_witness :
    generateSeckillToken 5 1 1 admDisabled = (.error .disabled, admDisabled) :=
  (generateSeckillToken_gate_order 5 1 1 admDisabled).1 (by decide)

/-- C6 (amended): with the first three gates passing, the activity-window gate
passes exactly on the closed interval `start_at ≤ now ≤ end_at`
(`now.Before(start) || now.After(end)` rejects): the attempt fails with the
out-of-window error when `now < start_at` or `now > end_at`, and is never
rejected by this gate when `start_at ≤ now ≤ end_at` — in particular
`now = end_at` is admitted, unlike the half-open interval of the claim. -/
theorem seckill_window_gate (now u g : Int) (s : AdmissionState) (p : PromotionRow)
    (hen : getSeckillEnabled s.enabledKey = true)
    (hbl : u ∉ s.blacklist) (hg : g ∈ s.goods) (hp : s.promotion g = some p) :
    ((now < p.startTime ∨ p.endTime < now) →
       generateSeckillToken now u g s = (.error .notAvailable, s)) ∧
    (p.startTime ≤ now → now ≤ p.endTime →
       (generateSeckillToken now u g s).1 ≠ .error .notAvailable) := by
  constructor
  · intro hw
    simp [generateSeckillToken, hen, hbl, hg, hp, hw]
  · intro hs1 hs2
    have hw : ¬(now < p.startTime ∨ p.endTime < now) := by omega
    by_cases h6 : getGoodsStock (s.stock g) ≤ 0
    · simp [generateSeckillToken, hen, hbl, hg, hp, hw, h6]
    · by_cases hr : (user_rate_limit (getRateLimitConfig s.rateLimitKey) 60 s.rate).1 = 1
      · simp [generateSeckillToken, hen, hbl, hg, hp, hw, h6, hr]
      · simp [generateSeckillToken, hen, hbl, hg, hp, hw, h6, hr]

/-- Witness for C6 (amended): a time inside the window is not rejected by the
window gate. -/
theorem seckill_window_gate_witness :
    (generateSeckillToken 3 1 1 admSample).1 ≠ .error .notAvailable :=
  (seckill_window_gate 3 1 1 admSample promoSample (by decide) (by decide)
    (by decide) (by decide)).2 (by decide) (by decide)

/-- Counterexample to C6 as stated: at `now = end_at` (10) the window gate
passes and a token is issued, instead of failing with the out-of-window error
demanded by the half-open interval `start_at ≤ now < end_at`. -/
theorem seckill_window_counterexample :
    promoSample.endTime = 10 ∧ admSample.promotion 1 = some promoSample ∧
    (generateSeckillToken 10 1 1 admSample).1 = Except.ok () := by
  refine ⟨rfl, by decide, rfl⟩

/-- C9: a missing enabled key is treated as campaign-enabled: GetSeckillEnabled
returns true with no error on an absent key, and the admission pipeline can
then never fail with the disabled error. -/
theorem getSeckillEnabled_default (now u g : Int) (s : AdmissionState) :
    getSeckillEnabled none = true ∧
    (s.enabledKey = none →
       (generateSeckillToken now u g s).1 ≠ Except.error GateErr.disabled) := by
  refine ⟨rfl, fun h => ?_⟩
  have hen : getSeckillEnabled s.enabledKey = true := by rw [h]; rfl
  rcases generateSeckillToken_cases now u g s with
    ⟨hf, _⟩ | ⟨_, _, hr⟩ | ⟨_, _, _, hr⟩ | ⟨_, _, _, _, hr⟩ |
    ⟨p, _, _, _, _, _, hr⟩ | ⟨p, _, _, _, _, _, _, hr⟩ |
    ⟨p, _, _, _, _, _, _, hr⟩
  · rw [hen] at hf; cases hf
  · rw [hr]; simp
  · rw [hr]; simp
  · rw [hr]; simp
  · rw [hr]; simp
  · rw [hr]; simp
  · rw [hr]; split <;> simp

/-- Witness for C9: the sample state has no enabled key, and its admission
outcome is not the disabled error. -/
theorem getSeckillEnabled_default_witness :
    (generateSeckillToken 3 1 1 admSample).1 ≠ Except.error GateErr.disabled :=
  (getSeckillEnabled_default 3 1 1 admSample).2 rfl

/-- C10: GetGoodsStock returns 0 with no error when the stock cell is absent;
consequently an attempt for a product whose stock was never preloaded (with the
earlier gates passing) is rejected as sold out at the stock-peek gate rather
than reported as an uninitialised-stock or store error. -/
theorem getGoodsStock_missing (now u g : Int) (s : AdmissionState) (p : PromotionRow)
    (hen : getSeckillEnabled s.enabledKey = true)
    (hbl : u ∉ s.blacklist) (hg : g ∈ s.goods)
    (hp : s.promotion g = some p)
    (hw : ¬(now < p.startTime ∨ p.endTime < now))
    (hst : s.stock g = none) :
    getGoodsStock none = 0 ∧
    generateSeckillToken now u g s = (.error .soldOut, s) := by
  refine ⟨rfl, ?_⟩
  have h6 : getGoodsStock (s.stock g) ≤ 0 := by rw [hst]; decide
  simp [generateSeckillToken, hen, hbl, hg, hp, hw, h6]

/-- Witness for C10: goods 1 has no stock cell in `admNoStock`, and the attempt
is rejected as sold out. -/
theorem getGoodsStock_missing_witness :
    generateSeckillToken 3 2 1 admNoStock = (.error .soldOut, admNoStock) :=
  (getGoodsStock_missing 3 2 1 admNoStock promoSample (by decide) (by decide)
    (by decide) (by decide) (by decide) rfl).2

/-- C4: the optimistic-lock decrement updates the promotion row iff the row's
current version equals the expected one; a successful update decrements
`ps_count` by exactly 1, increments `version` by exactly 1 and reports
`rows_affected = 1`; a version mismatch reports `rows_affected = 0` and leaves
the row unchanged. -/
theorem occReduceOnePromotion_correct (p : PromotionRow) (expectedVersion : Int) :
    (p.version = expectedVersion →
       occReduceOnePromotion expectedVersion (some p) =
         (1, some { p with psCount := p.psCount - 1, version := p.version + 1 })) ∧
    (p.version ≠ expectedVersion →
       occReduceOnePromotion expectedVersion (some p) = (0, some p)) := by
  constructor
  · intro h
    simp [occReduceOnePromotion, h]
  · intro h
    simp [occReduceOnePromotion, h]

/-- Witness for C4 at the sample promotion row, expected version 0. -/
theorem occReduceOnePromotion_correct_witness :
    occReduceOnePromotion 0 (some promoSample) =
      (1, some { psCount := 4, startTime := 0, endTime := 10, version := 1 }) := by
  have h := (occReduceOnePromotion_correct promoSample 0).1 rfl
  exact h.trans (by decide)

/-- Equation for CreateOrder when the stock cell holds a non-positive value:
the pre-decrement rejects and nothing changes. -/
theorem createOrder_stockFail (u : Int) (s : EngineState) (v : Int)
    (hs : s.stock = some v) (hv : v ≤ 0) :
    createOrder u s = (.error .stockCheckFailed, s) := by
  have hpre : check_and_decr_stock s.stock = (-2, some v) := by
    rw [hs]; simp [check_and_decr_stock, hv]
  simp only [createOrder, hpre]
  rw [if_pos (by norm_num)]

/-- Equation for CreateOrder when the pre-decrement succeeds but no promotion
row exists: the transaction fails and the stock cell is restored. -/
theorem createOrder_noPromo (u : Int) (s : EngineState) (v : Int)
    (hs : s.stock = some v) (hv : 0 < v) (hp : s.promo = none) :
    createOrder u s =
      (.error .getPromotionFailed, { s with stock := incrGoodsStock (some (v - 1)) }) := by
  have hpre : check_and_decr_stock s.stock = (v - 1, some (v - 1)) := by
    rw [hs]; simp only [check_and_decr_stock]; rw [if_neg (by omega)]
  simp only [createOrder, hpre, hp]
  rw [if_neg (by omega)]

/-- Equation for CreateOrder when the pre-decrement succeeds but the user
already holds an order: the optimistic-lock decrement commits on the base
connection, the insert aborts the transaction, and the stock cell is
restored. -/
theorem createOrder_dup (u : Int) (s : EngineState) (v : Int) (p : PromotionRow)
    (hs : s.stock = some v) (hv : 0 < v) (hp : s.promo = some p) (ho : u ∈ s.orders) :
    createOrder u s =
      (.error .duplicateOrder,
       { s with stock := incrGoodsStock (some (v - 1)),
                promo := some { p with psCount := p.psCount - 1,
                                       version := p.version + 1 } }) := by
  have hpre : check_and_decr_stock s.stock = (v - 1, some (v - 1)) := by
    rw [hs]; simp only [check_and_decr_stock]; rw [if_neg (by omega)]
  have hocc : occReduceOnePromotion p.version (some p) =
      (1, some { p with psCount := p.psCount - 1, version := p.version + 1 }) := by
    simp [occReduceOnePromotion]
  simp only [createOrder, hpre, hp, hocc]
  rw [if_neg (by omega), if_neg (by norm_num), if_pos ho]

/-- Equation for CreateOrder on the success path: stock decremented, row
updated by the optimistic lock, order inserted. -/
theorem createOrder_ok (u : Int) (s : EngineState) (v : Int) (p : PromotionRow)
    (hs : s.stock = some v) (hv : 0 < v) (hp : s.promo = some p) (ho : u ∉ s.orders) :
    createOrder u s =
      (.ok (),
       { s with stock := some (v - 1),
                promo := some { p with psCount := p.psCount - 1,
                                       version := p.version + 1 },
                orders := u :: s.orders }) := by
  have hpre : check_and_decr_stock s.stock = (v - 1, some (v - 1)) := by
    rw [hs]; simp only [check_and_decr_stock]; rw [if_neg (by omega)]
  have hocc : occReduceOnePromotion p.version (some p) =
      (1, some { p with psCount := p.psCount - 1, version := p.version + 1 }) := by
    simp [occReduceOnePromotion]
  simp only [createOrder, hpre, hp, hocc]
  rw [if_neg (by omega), if_neg (by norm_num), if_neg ho]

/-- Net effect of one CreateOrder call on the stock cell and the orders: a
failed attempt leaves both unchanged (the compensation restores the
pre-decrement), and a successful attempt consumes one unit of stock and adds
one order. -/
theorem createOrder_net (u : Int) (s : EngineState) (v : Int) (hs : s.stock = some v) :
    ((createOrder u s).2.stock = some v ∧ (createOrder u s).2.orders = s.orders) ∨
    (0 < v ∧ (createOrder u s).2.stock = some (v - 1) ∧
       (createOrder u s).2.orders = u :: s.orders) := by
  by_cases hv : v ≤ 0
  · left
    rw [createOrder_stockFail u s v hs hv]
    exact ⟨hs, rfl⟩
  · have hv' : 0 < v := by omega
    have hincr : incrGoodsStock (some (v - 1)) = some v := by
      simp [incrGoodsStock]
    cases hpp : s.promo with
    | none =>
        left
        rw [createOrder_noPromo u s v hs hv' hpp]
        exact ⟨hincr, rfl⟩
    | some p =>
        by_cases ho : u ∈ s.orders
        · left
          rw [createOrder_dup u s v p hs hv' hpp ho]
          exact ⟨hincr, rfl⟩
        · right
          rw [createOrder_ok u s v p hs hv' hpp ho]
          exact ⟨hv', rfl, rfl⟩

/-- Running any sequence of CreateOrder calls preserves the oversell bound: if
the order count plus the (non-negative) stock-cell value is at most `K`, the
final order count is at most `K`. -/
theorem createOrderRun_le (K : Nat) :
    ∀ (users : List Int) (s : EngineState) (v : Int),
      s.stock = some v → 0 ≤ v → s.orders.length + v.toNat ≤ K →
      (createOrderRun users s).2.orders.length ≤ K := by
  intro users
  induction users with
  | nil =>
      intro s v hs hv hle
      simp only [createOrderRun]
      omega
  | cons u rest ih =>
      intro s v hs hv hle
      simp only [createOrderRun]
      rcases createOrder_net u s v hs with ⟨h1, h2⟩ | ⟨hpos, h1, h2⟩
      · exact ih (createOrder u s).2 v h1 hv (by rw [h2]; exact hle)
      · refine ih (createOrder u s).2 (v - 1) h1 (by omega) ?_
        rw [h2]
        simp only [List.length_cons]
        omega

/-- Running CreateOrder for pairwise-distinct fresh users from a state holding
`K - m` units of stock and `m` orders yields `min (m + N) K` orders: every
attempt succeeds while stock remains, and every later attempt is rejected by
the pre-decrement. -/
theorem createOrderRun_distinct (K : Nat) :
    ∀ (users : List Int) (s : EngineState) (m : Nat),
      users.Nodup → m ≤ K → s.stock = some ((K : Int) - (m : Int)) →
      s.promo.isSome → s.orders.length = m → (∀ w ∈ users, w ∉ s.orders) →
      (createOrderRun users s).2.orders.length = min (m + users.length) K := by
  intro users
  induction users with
  | nil =>
      intro s m hnd hm hs hp hlen hf
      simp only [createOrderRun, List.length_nil]
      omega
  | cons u rest ih =>
      intro s m hnd hm hs hp hlen hf
      obtain ⟨p, hpp⟩ := Option.isSome_iff_exists.mp hp
      by_cases hmK : m < K
      · have hv : (0 : Int) < (K : Int) - (m : Int) := by omega
        have heq := createOrder_ok u s ((K : Int) - (m : Int)) p hs hv hpp
          (hf u (List.mem_cons_self u rest))
        simp only [createOrderRun, heq]
        have hrec := ih
          { s with stock := some ((K : Int) - (m : Int) - 1),
                   promo := some { p with psCount := p.psCount - 1,
                                          version := p.version + 1 },
                   orders := u :: s.orders }
          (m + 1) (List.Nodup.of_cons hnd) (by omega)
          (by simp only []; congr 1; push_cast; ring)
          (by simp) (by simp [hlen])
          (fun w hw => by
            simp only [List.mem_cons, not_or]
            exact ⟨fun hwu => (List.nodup_cons.mp hnd).1 (hwu ▸ hw),
                   hf w (List.mem_cons_of_mem u hw)⟩)
        rw [hrec]
        simp only [List.length_cons]
        omega
      · have heq := createOrder_stockFail u s ((K : Int) - (m : Int)) hs (by omega)
        simp only [createOrderRun, heq]
        have hrec := ih s m (List.Nodup.of_cons hnd) hm hs hp hlen
          (fun w hw => hf w (List.mem_cons_of_mem u hw))
        rw [hrec]
        simp only [List.length_cons]
        omega

/-- C1 (amended): for a campaign preloaded with `K` units, any sequence of
commit_purchase attempts leaves at most `K` orders in the durable store; when
the `N` attempts are by pairwise-distinct users, the order count is exactly
`min N K`. (As frozen the claim asserts `min N K` for arbitrary users, which
fails when a user repeats: the duplicate attempt is rejected.) -/
theorem createOrder_no_oversell (K : Nat) (p : PromotionRow)
    (tok : Option SeckillTokenData) (users : List Int) :
    (createOrderRun users (initState K p tok)).2.orders.length ≤ K ∧
    (users.Nodup →
      (createOrderRun users (initState K p tok)).2.orders.length =
        min users.length K) := by
  constructor
  · refine createOrderRun_le K users (initState K p tok) (K : Int) rfl
      (Int.natCast_nonneg K) ?_
    simp [initState]
  · intro hnd
    have h := createOrderRun_distinct K users (initState K p tok) 0 hnd
      (Nat.zero_le K) (by simp [initState]) (by simp [initState])
      (by simp [initState]) (by simp [initState])
    simpa using h

/-- Witness for C1 (amended): three distinct users against stock 2 produce
exactly 2 orders. -/
theorem createOrder_no_oversell_witness :
    (createOrderRun [1, 2, 3] (initState 2 promoSample none)).2.orders.length = 2 := by
  have h := (createOrder_no_oversell 2 promoSample none [1, 2, 3]).2 (by decide)
  exact h.trans (by decide)

/-- Counterexample to C1 as frozen: two attempts by the same user against
initial stock 2 leave one order, not `min 2 2 = 2`. -/
theorem createOrder_no_oversell_counterexample :
    (createOrderRun [7, 7] (initState 2 promoSample none)).2.orders.length = 1 ∧
    min (List.length [(7 : Int), 7]) 2 = 2 := by
  constructor
  · decide
  · decide

/-- Equation for SeckillWithToken when the presented token has no stored
record: the call fails with the invalid-token error and changes nothing. -/
theorem seckillWithToken_noToken (now u g : Int) (s : EngineState)
    (h : s.token = none) :
    seckillWithToken now u g s = (.error .invalidToken, s) := by
  have hv : verifySeckillToken now u g s.token = (.notFound, none) := by rw [h]; rfl
  simp only [seckillWithToken, hv]
  rw [if_pos (by decide)]
  rw [show ({ s with token := none } : EngineState) = s from by rw [← h]]

/-- Iterated SeckillWithToken calls after the token record is gone: every call
fails with the invalid-token error and the state is unchanged. -/
theorem seckillRun_noToken (now u g : Int) :
    ∀ (n : Nat) (s : EngineState), s.token = none →
      seckillRun now u g n s = (List.replicate n (.error .invalidToken), s) := by
  intro n
  induction n with
  | zero => intro s h; rfl
  | succ n ih =>
      intro s h
      simp only [seckillRun, seckillWithToken_noToken now u g s h, ih s h,
        List.replicate_succ]

/-- C2: the purchase token is single-use — a successful validate-and-consume
deletes the stored record, so every subsequent validate-and-consume of the same
token fails; among `n + 1` sequential commit_purchase calls presenting the same
valid token (whose first durable commit can succeed: stock available, no prior
order), exactly the first observes success and every other observes the
invalid-token error. -/
theorem seckill_token_single_use (now u g : Int) (t : SeckillTokenData)
    (n : Nat) (s : EngineState) (v : Int) (p : PromotionRow)
    (htok : s.token = some t) (hexp : ¬ t.expireAt < now)
    (hu : t.userId = u) (hg : t.goodsId = g)
    (hs : s.stock = some v) (hv : 0 < v) (hp : s.promo = some p)
    (ho : u ∉ s.orders) :
    (verifySeckillToken now u g s.token).2 = none ∧
    (seckillRun now u g (n + 1) s).1 =
      .ok () :: List.replicate n (.error .invalidToken) := by
  have hv1 : verifySeckillToken now u g s.token = (.ok, none) := by
    rw [htok]
    simp [verifySeckillToken, hexp, hu, hg]
  refine ⟨by rw [hv1], ?_⟩
  have hco := createOrder_ok u { s with token := none } v p hs hv hp ho
  simp only [seckillRun, seckillWithToken, hv1]
  rw [if_neg (by decide)]
  simp only [hco]
  rw [seckillRun_noToken now u g n _ rfl]

/-- Witness for C2: two calls with the stored sample token; the first succeeds
and the second observes the invalid-token error. -/
theorem seckill_token_single_use_witness :
    (seckillRun 0 1 1 (1 + 1) engFresh).1 =
      [Except.ok (), Except.error SeckillErr.invalidToken] := by
  have h := (seckill_token_single_use 0 1 1 tokSample 1 engFresh 2 promoSample
    rfl (by decide) rfl rfl rfl (by decide) rfl (by decide)).2
  exact h.trans rfl

/-- C3: when purchase-token validation fails, commit_purchase returns the
invalid-token error with no stock change and no compensation; when the durable
transaction fails after the pre-decrement of the stock cell succeeded, the
engine increments the cell by exactly one, so the failed attempt leaves the
counter's net value unchanged. -/
theorem seckill_compensation (now u g : Int) (s : EngineState) :
    ((verifySeckillToken now u g s.token).1 ≠ .ok →
       seckillWithToken now u g s =
         (.error .invalidToken,
          { s with token := (verifySeckillToken now u g s.token).2 }) ∧
       (seckillWithToken now u g s).2.stock = s.stock ∧
       (seckillWithToken now u g s).2.promo = s.promo ∧
       (seckillWithToken now u g s).2.orders = s.orders) ∧
    (∀ (e : OrderErr) (v : Int), s.stock = some v → 0 < v →
       (createOrder u s).1 = .error e →
       (createOrder u s).2.stock = incrGoodsStock (some (v - 1)) ∧
       (createOrder u s).2.stock = s.stock) := by
  constructor
  · intro hne
    have heq : seckillWithToken now u g s =
        (.error .invalidToken,
         { s with token := (verifySeckillToken now u g s.token).2 }) := by
      rcases hE : verifySeckillToken now u g s.token with ⟨vr, nt⟩
      rw [hE] at hne
      simp only [seckillWithToken, hE]
      rw [if_pos hne]
    exact ⟨heq, by rw [heq], by rw [heq], by rw [heq]⟩
  · intro e v hs hv herr
    have hincr : incrGoodsStock (some (v - 1)) = some v := by
      simp [incrGoodsStock]
    cases hpp : s.promo with
    | none =>
        rw [createOrder_noPromo u s v hs hv hpp]
        exact ⟨rfl, by rw [hs, hincr]⟩
    | some p =>
        by_cases hdup : u ∈ s.orders
        · rw [createOrder_dup u s v p hs hv hpp hdup]
          exact ⟨rfl, by rw [hs, hincr]⟩
        · rw [createOrder_ok u s v p hs hv hpp hdup] at herr
          simp at herr

/-- Witness for C3: a duplicate order by user 5 against stock 2 compensates the
cell back to 2. -/
theorem seckill_compensation_witness :
    (createOrder 5 engSample).2.stock = incrGoodsStock (some (2 - 1)) ∧
    (createOrder 5 engSample).2.stock = engSample.stock :=
  (seckill_compensation 0 5 1 engSample).2 .duplicateOrder 2 rfl (by decide) rfl
